import Mathlib

/-!
# Verification of the Nexusdemics Telegram academic-assistant bot

Shallow embedding of the conversation/session state machine and the pure
helper functions of the repository (main bot module, `draft-generation.js`,
`validation-commands.js`, `source-retrieval.js`, `delivery-monitoring.js`),
together with theorems settling the specification claims about them.

Conventions of the embedding:
* JS strings are Lean `String`s (for `chunkContent`, `List Char` so that
  index arithmetic is explicit).
* A JS field that may be `undefined` is an `Option`; for the `doi` field the
  code uses JS truthiness (`source.doi || source.title`), so `doi` is a
  `String` and the empty string plays the role of a falsy/absent value.
* Third-party adapter calls (Groq, Eden AI, ...) are inputs of the model:
  an oracle value describing the outcome of the call.
-/

/-! ## Source records and deduplication (`source-retrieval.js`) -/

/-- A research source record as handled by `source-retrieval.js`
(`title`, `doi`, `year`; the remaining fields of the JS object do not
participate in deduplication or approval logic and are omitted). -/
structure SourceRecord where
  title : String
  doi : String
  year : Nat
deriving DecidableEq

/-- The deduplication key of `deduplicateSources`:
`const key = source.doi || source.title` — the `doi` when truthy
(non-empty), else the `title`. -/
def sourceKey (s : SourceRecord) : String :=
  if s.doi = "" then s.title else s.doi

/-- The loop of `deduplicateSources`: a `filter` threading the mutable
`seen` set of keys, keeping a record iff its key was not seen before. -/
def dedupAux (seen : List String) : List SourceRecord → List SourceRecord
  | [] => []
  | s :: rest =>
    if sourceKey s ∈ seen then dedupAux seen rest
    else s :: dedupAux (sourceKey s :: seen) rest

/-- `deduplicateSources(sources)` from `source-retrieval.js`: filter with an
initially empty `seen` set. -/
def deduplicateSources (sources : List SourceRecord) : List SourceRecord :=
  dedupAux [] sources

lemma dedupAux_keys_nodup (l : List SourceRecord) :
    ∀ seen : List String,
      ((dedupAux seen l).map sourceKey).Nodup ∧
      ∀ s ∈ dedupAux seen l, sourceKey s ∉ seen := by
  induction l with
  | nil => intro seen; simp [dedupAux]
  | cons a rest ih =>
    intro seen
    by_cases h : sourceKey a ∈ seen
    · simpa [dedupAux, h] using ih seen
    · have ihs := ih (sourceKey a :: seen)
      refine ⟨?_, ?_⟩
      · simp only [dedupAux, h, if_false, List.map_cons, List.nodup_cons]
        refine ⟨?_, ihs.1⟩
        intro hmem
        rcases List.mem_map.mp hmem with ⟨t, ht, hkey⟩
        have := ihs.2 t ht
        simp [hkey] at this
      · intro s hs
        simp only [dedupAux, h, if_false, List.mem_cons] at hs
        rcases hs with hs | hs
        · subst hs; exact h
        · have := ihs.2 s hs
          intro hcon
          exact this (List.mem_cons_of_mem _ hcon)

lemma dedupAux_eq_self (l : List SourceRecord) :
    ∀ seen : List String, (l.map sourceKey).Nodup →
      (∀ s ∈ l, sourceKey s ∉ seen) → dedupAux seen l = l := by
  induction l with
  | nil => intro seen _ _; rfl
  | cons a rest ih =>
    intro seen hnd hdis
    have hmem : sourceKey a ∉ seen := hdis a (List.mem_cons_self a rest)
    simp only [List.map_cons, List.nodup_cons] at hnd
    have hrest : ∀ s ∈ rest, sourceKey s ∉ sourceKey a :: seen := by
      intro s hs
      simp only [List.mem_cons, not_or]
      constructor
      · intro hk
        exact hnd.1 (hk ▸ List.mem_map_of_mem sourceKey hs)
      · exact hdis s (List.mem_cons_of_mem _ hs)
    simp only [dedupAux, hmem, if_false]
    rw [ih (sourceKey a :: seen) hnd.2 hrest]

lemma dedupAux_sublist (l : List SourceRecord) :
    ∀ seen : List String, (dedupAux seen l).Sublist l := by
  induction l with
  | nil => intro seen; simp [dedupAux]
  | cons a rest ih =>
    intro seen
    by_cases h : sourceKey a ∈ seen
    · simp only [dedupAux, h, if_true]
      exact (ih seen).cons a
    · simp only [dedupAux, h, if_false]
      exact (ih (sourceKey a :: seen)).cons₂ a

/-- Scenario B records: three records, the first and third sharing
`doi = "10.1/x"`. -/
def recA : SourceRecord := ⟨"Paper A", "10.1/x", 2021⟩

def recB : SourceRecord := ⟨"Paper B", "10.2/y", 2022⟩

def recC : SourceRecord := ⟨"Paper C", "10.1/x", 2023⟩

/-- C4: `deduplicateSources` is idempotent; on a list with no duplicate
doi/title keys it is the identity; its output is always an
order-preserving sublist of the input (first occurrence kept); and on the
Scenario B list (two of three records sharing a doi) it keeps exactly the
first two distinct-key records. -/
theorem deduplicateSources_spec :
    (∀ l : List SourceRecord,
        deduplicateSources (deduplicateSources l) = deduplicateSources l) ∧
    (∀ l : List SourceRecord,
        (l.map sourceKey).Nodup → deduplicateSources l = l) ∧
    (∀ l : List SourceRecord, (deduplicateSources l).Sublist l) ∧
    deduplicateSources [recA, recB, recC] = [recA, recB] := by
  have hid : ∀ l : List SourceRecord,
      (l.map sourceKey).Nodup → deduplicateSources l = l := by
    intro l hnd
    exact dedupAux_eq_self l [] hnd (by intro s _; simp)
  refine ⟨?_, hid, ?_, ?_⟩
  · intro l
    exact hid (deduplicateSources l) (dedupAux_keys_nodup l []).1
  · intro l; exact dedupAux_sublist l []
  · decide

/-- Witness for C4 on concrete data: the nodup hypothesis discharged on the
two-record list with distinct keys. -/
theorem deduplicateSources_spec_witness :
    deduplicateSources (deduplicateSources [recA, recB, recC]) =
      deduplicateSources [recA, recB, recC] ∧
    (([recA, recB].map sourceKey).Nodup ∧
      deduplicateSources [recA, recB] = [recA, recB]) :=
  ⟨deduplicateSources_spec.1 [recA, recB, recC],
    by decide,
    deduplicateSources_spec.2.1 [recA, recB] (by decide)⟩

/-! ## Per-chat session state (main bot module, `src/unnamed/part_002`) -/

/-- The `lastDraft` summary stored by `processDraft` into the session. -/
structure DraftSummary where
  topic : String
  content : String
  format : String
  pages : Nat
  plagiarismScore : ℚ
deriving DecidableEq

/-- The per-chat session object as initialised by the bot middleware and
mutated by the handlers of the main module. `waitingForComment` holds the
draft id string when set (`ctx.session.waitingForComment = draftId`); the
falsy values `undefined`/`false` used by the code to disable it are `none`. -/
structure Session where
  messages : List String
  isAggregating : Bool
  userType : String
  approvedSources : List SourceRecord
  pendingSources : List SourceRecord
  waitingForRevision : Bool
  waitingForComment : Option String
  lastDraft : Option DraftSummary
  currentTopic : Option String
deriving DecidableEq

/-- The session the middleware produces for a fresh chat (all fields at
their defaults: empty collections, `guest`, no markers, no draft). -/
def Session.default : Session :=
  ⟨[], false, "guest", [], [], false, none, none, none⟩

/-- A persisted feedback row, as logged by `saveFeedback(chatId, rating,
comment = '')` in `delivery-monitoring.js`. -/
structure Feedback where
  chatId : Nat
  rating : Nat
  comment : String
deriving DecidableEq

/-! ## Source-approval callbacks (`callback_query` handler, lines 213–229) -/

/-- The three source-approval callback events of the `callback_query`
handler: `approve_source_<i>`, `approve_all_sources`, `cancel_sources`. -/
inductive ApprovalEvent where
  | approveOne (i : Nat)
  | approveAll
  | cancelSources
deriving DecidableEq

/-- One source-approval callback, returning the updated session and the
optional reply text sent to the user.  Mirrors the handler:
* `approve_source_<i>`: look up `pendingSources[i]`; if present, push it
  onto `approvedSources` and reply; otherwise do nothing (no reply).
* `approve_all_sources`: `approvedSources = pendingSources`.
* `cancel_sources`: `pendingSources = []` (and only that). -/
def approvalStepR (s : Session) : ApprovalEvent → Session × Option String
  | .approveOne i =>
    match s.pendingSources[i]? with
    | some src =>
      ({ s with approvedSources := s.approvedSources ++ [src] },
        some ("Approved: " ++ src.title))
    | none => (s, none)
  | .approveAll =>
    ({ s with approvedSources := s.pendingSources },
      some "All sources approved!")
  | .cancelSources =>
    ({ s with pendingSources := [] }, some "Source selection cancelled.")

/-- The session component of `approvalStepR`. -/
def approvalStep (s : Session) (e : ApprovalEvent) : Session :=
  (approvalStepR s e).1

/-- Session used for the C2 counterexample: one pending source, nothing
approved yet. -/
def sessC2 : Session := { Session.default with pendingSources := [recA] }

/-- Counterexample to C2 as stated: approving source 0 and then pressing
`cancel_sources` leaves `approvedSources = [recA]` while `pendingSources`
is cleared to `[]`, so `approvedSources` is not a subset of the current
pending batch. -/
theorem approvedSubset_counterexample :
    ([ApprovalEvent.approveOne 0,
      ApprovalEvent.cancelSources].foldl approvalStep sessC2).approvedSources
        = [recA] ∧
    ([ApprovalEvent.approveOne 0,
      ApprovalEvent.cancelSources].foldl approvalStep sessC2).pendingSources
        = [] ∧
    ¬ ([ApprovalEvent.approveOne 0,
        ApprovalEvent.cancelSources].foldl approvalStep sessC2).approvedSources
          ⊆ ([ApprovalEvent.approveOne 0,
              ApprovalEvent.cancelSources].foldl approvalStep sessC2).pendingSources := by
  refine ⟨by decide, by decide, ?_⟩
  intro hsub
  have : recA ∈ ([ApprovalEvent.approveOne 0,
      ApprovalEvent.cancelSources].foldl approvalStep sessC2).pendingSources :=
    hsub (by decide)
  revert this
  decide

/-- C2 amended: as long as no `cancel_sources` event occurs, any sequence
of approve-one / approve-all callbacks starting from a session where
`approvedSources ⊆ pendingSources` preserves that subset relation (the
`cancel_sources` branch clears only `pendingSources`, leaving approved
sources behind, which breaks the relation). -/
theorem approvedSubset_amended (s : Session) (es : List ApprovalEvent)
    (h0 : s.approvedSources ⊆ s.pendingSources)
    (hnc : ApprovalEvent.cancelSources ∉ es) :
    (es.foldl approvalStep s).approvedSources ⊆
      (es.foldl approvalStep s).pendingSources := by
  induction es generalizing s with
  | nil => simpa using h0
  | cons e rest ih =>
    simp only [List.foldl_cons]
    have hne : e ≠ ApprovalEvent.cancelSources := by
      intro h; exact hnc (h ▸ List.mem_cons_self e rest)
    have hrest : ApprovalEvent.cancelSources ∉ rest := by
      intro h; exact hnc (List.mem_cons_of_mem e h)
    have hstep : (approvalStep s e).approvedSources ⊆
        (approvalStep s e).pendingSources := ?_
    · exact ih (approvalStep s e) hstep hrest
    cases e with
    | approveOne i =>
      cases hx : s.pendingSources[i]? with
      | none => simpa [approvalStep, approvalStepR, hx] using h0
      | some src =>
        simp only [approvalStep, approvalStepR, hx]
        intro x hxmem
        rcases List.mem_append.mp hxmem with hmem | hmem
        · exact h0 hmem
        · have : x = src := by simpa using hmem
          subst this
          exact List.getElem?_mem hx
    | approveAll =>
      simp [approvalStep, approvalStepR, List.Subset.refl]
    | cancelSources => exact absurd rfl hne

/-- Witness for C2 amended: both hypotheses discharged on a concrete
session and event sequence. -/
theorem approvedSubset_amended_witness :
    ([ApprovalEvent.approveOne 0,
      ApprovalEvent.approveAll].foldl approvalStep sessC2).approvedSources ⊆
      ([ApprovalEvent.approveOne 0,
        ApprovalEvent.approveAll].foldl approvalStep sessC2).pendingSources :=
  approvedSubset_amended sessC2 [ApprovalEvent.approveOne 0, ApprovalEvent.approveAll]
    (by intro x hx; simp [sessC2, Session.default] at hx) (by decide)

/-! ## `/cancel` command and the inline `cancel` button -/

/-- `bot.command('cancel')` (lines 588–599): sets `isAggregating = false`,
`messages = []`, `waitingForRevision = false`, `waitingForComment = false`,
`pendingSources = []` — and touches nothing else. -/
def cancelCommand (s : Session) : Session :=
  { s with
    isAggregating := false
    messages := []
    waitingForRevision := false
    waitingForComment := none
    pendingSources := [] }

/-- The inline `cancel` callback button branch (lines 280–282):
`ctx.session = {}`; after the middleware refills the defaults the session
is the fresh default session. -/
def cancelCallback (_s : Session) : Session :=
  Session.default

/-- A draft summary used in the C3 counterexample. -/
def exDraft : DraftSummary := ⟨"Climate change", "draft text", "APA", 5, 1/20⟩

/-- Session used for the C3 counterexample: an approved source, a stored
last draft and a chosen user type. -/
def sessC3 : Session :=
  { Session.default with
    approvedSources := [recA]
    lastDraft := some exDraft
    userType := "student" }

/-- Counterexample to C3 as stated: the `/cancel` command does not clear
`approvedSources` or `lastDraft` to their defaults — both survive, so the
session is not reset to the default state. -/
theorem cancelCommand_counterexample :
    (cancelCommand sessC3).approvedSources = [recA] ∧
    (cancelCommand sessC3).lastDraft = some exDraft ∧
    cancelCommand sessC3 ≠ Session.default := by
  refine ⟨rfl, rfl, ?_⟩
  intro h
  have := congrArg Session.approvedSources h
  revert this
  decide

/-- C3 amended: `/cancel`, from any session state, clears the aggregation
state (phase back to idle: `isAggregating = false`, `messages = []`), both
`waitingFor` markers and `pendingSources`; but it leaves `approvedSources`,
`lastDraft`, `userType` and `currentTopic` unchanged.  Only the inline
`cancel` button (`ctx.session = {}`) resets the whole session to the
default state. -/
theorem cancelCommand_amended (s : Session) :
    (cancelCommand s).isAggregating = false ∧
    (cancelCommand s).messages = [] ∧
    (cancelCommand s).waitingForRevision = false ∧
    (cancelCommand s).waitingForComment = none ∧
    (cancelCommand s).pendingSources = [] ∧
    (cancelCommand s).approvedSources = s.approvedSources ∧
    (cancelCommand s).lastDraft = s.lastDraft ∧
    (cancelCommand s).userType = s.userType ∧
    (cancelCommand s).currentTopic = s.currentTopic ∧
    cancelCallback s = Session.default := by
  exact ⟨rfl, rfl, rfl, rfl, rfl, rfl, rfl, rfl, rfl, rfl⟩

/-! ## Invalid source index (Scenario D) -/

/-- C6: an `approve_source_<i>` callback whose index is out of range for
the current `pendingSources` batch is a complete no-op: the session is
returned unchanged and no reply at all (in particular no error) is sent. -/
theorem approveInvalid_noop (s : Session) (i : Nat)
    (h : s.pendingSources.length ≤ i) :
    approvalStepR s (ApprovalEvent.approveOne i) = (s, none) := by
  have hx : s.pendingSources[i]? = none := List.getElem?_eq_none h
  simp [approvalStepR, hx]

/-- Session used for Scenario D: three pending sources. -/
def sessC6 : Session := { Session.default with pendingSources := [recA, recB, recC] }

/-- Witness for C6 at Scenario D: `approve_source_7` against a pending
batch of length 3 leaves the session unchanged and sends nothing. -/
theorem approveInvalid_noop_witness :
    approvalStepR sessC6 (ApprovalEvent.approveOne 7) = (sessC6, none) :=
  approveInvalid_noop sessC6 7 (by decide)

/-! ## `waitingFor` markers, ratings and free-text routing -/

/-- `bot.command('revise')` (lines 545–550): sets `waitingForRevision` to
`true` (and touches no other field — in particular not
`waitingForComment`). -/
def reviseCommand (s : Session) : Session :=
  { s with waitingForRevision := true }

/-- The `rate_<draftId>_<n>` callback branch (lines 169–181): persist the
rating via `saveFeedback(chatId, rating)` (comment defaulted to the empty
string), then, when `rating ≤ 3`, set `waitingForComment = draftId`. -/
def rateCallback (s : Session) (log : List Feedback) (chatId : Nat)
    (draftId : String) (rating : Nat) : Session × List Feedback :=
  let log1 := log ++ [⟨chatId, rating, ""⟩]
  if rating ≤ 3 then ({ s with waitingForComment := some draftId }, log1)
  else (s, log1)

/-- The `comment_<draftId>` callback branch (lines 183–187): set
`waitingForComment = draftId`. -/
def commentCallback (s : Session) (draftId : String) : Session :=
  { s with waitingForComment := some draftId }

/-- How the `bot.on('text')` handler routes an incoming free-text message
(lines 294–369): revision capture first, then comment capture, then
aggregation append, else aggregation start. -/
inductive TextRoute where
  | revision
  | comment
  | aggregateAppend
  | aggregateStart
deriving DecidableEq

/-- The routing decision of the text handler, read off its early-return
structure: `waitingForRevision` is checked first, then `waitingForComment`,
then `isAggregating`. -/
def routeText (s : Session) : TextRoute :=
  if s.waitingForRevision then .revision
  else if s.waitingForComment.isSome then .comment
  else if s.isAggregating then .aggregateAppend
  else .aggregateStart

/-- The state/log effect of the `bot.on('text')` handler on a free-text
message.  In the revision branch the marker is cleared (on success and on
error alike); in the comment branch `saveFeedback(chatId, 0, comment)` is
called and the marker deleted; otherwise the message is aggregated. -/
def textStep (chatId : Nat) (s : Session) (log : List Feedback)
    (text : String) : Session × List Feedback :=
  if s.waitingForRevision then
    ({ s with waitingForRevision := false }, log)
  else if s.waitingForComment.isSome then
    ({ s with waitingForComment := none }, log ++ [⟨chatId, 0, text⟩])
  else if s.isAggregating then
    ({ s with messages := s.messages ++ [text] }, log)
  else
    ({ s with
        isAggregating := true
        messages := [text]
        currentTopic := some text }, log)

/-- Counterexample to C5 as stated: a low rating sets `waitingForComment`,
and a subsequent `/revise` sets `waitingForRevision` without clearing it —
both markers are then active at the same time, so "at most one marker is
active" and "setting a new marker overrides the old" are both false. -/
theorem markers_counterexample :
    (reviseCommand
        (rateCallback Session.default [] 42 "d1" 2).1).waitingForRevision = true ∧
    (reviseCommand
        (rateCallback Session.default [] 42 "d1" 2).1).waitingForComment = some "d1" := by
  decide

/-- C5 amended: the two markers live in independent fields —
`reviseCommand` leaves `waitingForComment` untouched and `commentCallback`
leaves `waitingForRevision` untouched, so both can be active at once.  The
priority half of the claim does hold: an active revision marker routes the
next free text to revision capture, an active comment marker (with no
revision marker) routes it to comment capture, and any active marker
pre-empts the default aggregation handling. -/
theorem markers_amended (s : Session) :
    (reviseCommand s).waitingForComment = s.waitingForComment ∧
    (reviseCommand s).waitingForRevision = true ∧
    (commentCallback s "d").waitingForRevision = s.waitingForRevision ∧
    (s.waitingForRevision = true → routeText s = TextRoute.revision) ∧
    (s.waitingForRevision = false → s.waitingForComment.isSome →
      routeText s = TextRoute.comment) ∧
    (s.waitingForRevision = true ∨ s.waitingForComment.isSome →
      routeText s ≠ TextRoute.aggregateAppend ∧
      routeText s ≠ TextRoute.aggregateStart) := by
  refine ⟨rfl, rfl, rfl, ?_, ?_, ?_⟩
  · intro h; simp [routeText, h]
  · intro h1 h2; simp [routeText, h1, h2]
  · intro h
    rcases h with h | h
    · simp [routeText, h]
    · cases hr : s.waitingForRevision with
      | true => simp [routeText, hr]
      | false => simp [routeText, hr, h]

/-- Witness for C5 amended: the routing hypotheses discharged on concrete
sessions with one marker active. -/
theorem markers_amended_witness :
    routeText (reviseCommand Session.default) = TextRoute.revision ∧
    routeText (commentCallback Session.default "d1") = TextRoute.comment :=
  ⟨(markers_amended (reviseCommand Session.default)).2.2.2.1 rfl,
    (markers_amended (commentCallback Session.default "d1")).2.2.2.2.1 rfl rfl⟩

/-- C7: a `rate_<draftId>_<n>` callback with `n` at or below the low
threshold 3 (in a session not waiting for revision text) appends a
feedback row with rating `n` to the log and sets `waitingForComment` to the
draft id; the next free-text message is then persisted as a feedback
comment row (rating 0, the message as comment), the marker is deleted, and
the message is not treated as a new topic — the aggregation state
(`messages`, `isAggregating`, `currentTopic`) is untouched. -/
theorem rateLow_comment_flow (s : Session) (log : List Feedback)
    (chatId : Nat) (draftId text : String) (rating : Nat)
    (hrev : s.waitingForRevision = false) (hlow : rating ≤ 3) :
    (rateCallback s log chatId draftId rating).2 =
      log ++ [⟨chatId, rating, ""⟩] ∧
    (rateCallback s log chatId draftId rating).1.waitingForComment =
      some draftId ∧
    (textStep chatId (rateCallback s log chatId draftId rating).1
        (rateCallback s log chatId draftId rating).2 text).2 =
      log ++ [⟨chatId, rating, ""⟩] ++ [⟨chatId, 0, text⟩] ∧
    (textStep chatId (rateCallback s log chatId draftId rating).1
        (rateCallback s log chatId draftId rating).2 text).1.waitingForComment =
      none ∧
    (textStep chatId (rateCallback s log chatId draftId rating).1
        (rateCallback s log chatId draftId rating).2 text).1.messages =
      s.messages ∧
    (textStep chatId (rateCallback s log chatId draftId rating).1
        (rateCallback s log chatId draftId rating).2 text).1.isAggregating =
      s.isAggregating ∧
    (textStep chatId (rateCallback s log chatId draftId rating).1
        (rateCallback s log chatId draftId rating).2 text).1.currentTopic =
      s.currentTopic := by
  simp [rateCallback, textStep, hrev, hlow]

/-- Witness for C7 at Scenario E: rating 2 on a fresh session, followed by
a free-text message captured as the comment. -/
theorem rateLow_comment_flow_witness :
    (rateCallback Session.default [] 42 "d1" 2).2 = [⟨42, 2, ""⟩] ∧
    (rateCallback Session.default [] 42 "d1" 2).1.waitingForComment = some "d1" ∧
    (textStep 42 (rateCallback Session.default [] 42 "d1" 2).1
        (rateCallback Session.default [] 42 "d1" 2).2 "too generic").2 =
      [⟨42, 2, ""⟩] ++ [⟨42, 0, "too generic"⟩] := by
  have h := rateLow_comment_flow Session.default [] 42 "d1" "too generic" 2
    rfl (by decide)
  refine ⟨?_, h.2.1, ?_⟩
  · simpa using h.1
  · simpa using h.2.2.1

/-! ## Draft pipeline and plagiarism gate (`draft-generation.js`) -/

/-- Outcome of one Eden AI plagiarism-detection call, as seen by
`checkPlagiarism`: a provider score, a response with no score field
(`response.data.originalityai?.score` undefined), or a thrown error
(network failure / timeout), which the `catch` turns into `0`. -/
inductive PlagiarismOutcome where
  | score (q : ℚ)
  | missingScore
  | failure
deriving DecidableEq

/-- `checkPlagiarism` (lines 96–111): returns the provider score; the
`?.score || 0` fallback yields `0` when the score field is missing, and
the `catch` returns `0` on any thrown error. -/
def checkPlagiarism : PlagiarismOutcome → ℚ
  | .score q => q
  | .missingScore => 0
  | .failure => 0

/-- What the draft workflow produced when it ran to completion:
the number of `generateDraft` calls performed, the final (annotated)
topic, and the accepted plagiarism score. -/
structure DraftResult where
  attempts : Nat
  topic : String
  score : ℚ
deriving DecidableEq

/-- Terminal outcome of `processDraft`: either the pipeline reached
document creation/delivery, or the `catch` block ran (user-facing error
reply, admin alert).  There is no manual-review outcome anywhere in the
code. -/
inductive DraftOutcome where
  | completed (r : DraftResult)
  | failed (alerted : Bool)
deriving DecidableEq

/-- `processDraft` (lines 213–310), with its adapter calls abstracted as
oracles indexed by the attempt number: `gen n` is the outcome of the
`n`-th `generateDraft` call (`none` = the call threw), `checker n` the
outcome of the `n`-th plagiarism check.  The `fuel` argument is an
artifact of the embedding only — the JS function has no counter and calls
itself recursively, unconditionally, whenever `plagiarismScore > 0.1`
(line 230), so the model returns `none` when `fuel` recursion unfoldings
were not enough for the recursion to reach any outcome. -/
def processDraftFuel (gen : Nat → Option String)
    (checker : Nat → PlagiarismOutcome) (topic : String) (attempt : Nat) :
    Nat → Option DraftOutcome
  | 0 => none
  | fuel + 1 =>
    match gen attempt with
    | none => some (DraftOutcome.failed true)
    | some _content =>
      if checkPlagiarism (checker attempt) > 1/10 then
        processDraftFuel gen checker
          (topic ++ " (rewrite to be more original)") (attempt + 1) fuel
      else
        some (DraftOutcome.completed ⟨attempt + 1, topic, checkPlagiarism (checker attempt)⟩)

/-- A draft generator whose calls always succeed. -/
def genOk : Nat → Option String := fun _ => some "generated draft content"

/-- C1, against the code: for a plagiarism checker that always returns
0.25 (above the 0.10 threshold), `processDraft` never reaches any outcome
within any number of recursion unfoldings — the retry recursion carries no
attempt counter and no cap, and no manual-review outcome exists, so the
recursion is unbounded. -/
theorem processDraft_unbounded (fuel : Nat) :
    ∀ (topic : String) (attempt : Nat),
      processDraftFuel genOk (fun _ => PlagiarismOutcome.score (1/4))
        topic attempt fuel = none := by
  induction fuel with
  | zero => intro topic attempt; rfl
  | succ n ih =>
    intro topic attempt
    have hgt : checkPlagiarism (PlagiarismOutcome.score (1/4)) > 1/10 := by
      norm_num [checkPlagiarism]
    simp only [processDraftFuel, genOk, hgt, if_true]
    exact ih _ _

/-- C9: a failed plagiarism check (thrown error or missing provider score)
makes `checkPlagiarism` return 0, so the quality gate passes at once: the
pipeline completes on the very first attempt with score 0 — no retry, no
`failed` outcome (hence no user-facing error and no admin alert) — exactly
as it would for a checker reporting a perfect originality score of 0. -/
theorem plagiarismFailure_proceeds (topic : String) (attempt fuel : Nat) :
    checkPlagiarism PlagiarismOutcome.failure = 0 ∧
    checkPlagiarism PlagiarismOutcome.missingScore = 0 ∧
    processDraftFuel genOk (fun _ => PlagiarismOutcome.failure)
        topic attempt (fuel + 1) =
      some (DraftOutcome.completed ⟨attempt + 1, topic, 0⟩) ∧
    processDraftFuel genOk (fun _ => PlagiarismOutcome.failure)
        topic attempt (fuel + 1) =
      processDraftFuel genOk (fun _ => PlagiarismOutcome.score 0)
        topic attempt (fuel + 1) := by
  refine ⟨rfl, rfl, ?_, ?_⟩
  · simp [processDraftFuel, genOk, checkPlagiarism]
  · simp only [processDraftFuel, genOk, checkPlagiarism]
    norm_num

/-! ## `chunkContent` (`draft-generation.js`, lines 204–210) -/

/-- `chunkContent(content, maxLength)`: the loop
`for (let i = 0; i < content.length; i += maxLength)` pushing
`content.slice(i, i + maxLength)`.  The content is modelled as its list of
characters; for `maxLength = 0` the JS loop would not terminate, so the
model returns `[]` in that (out-of-contract) case. -/
def chunkContent (content : List Char) (maxLength : Nat) : List (List Char) :=
  if h : maxLength = 0 ∨ content = [] then []
  else
    content.take maxLength :: chunkContent (content.drop maxLength) maxLength
termination_by content.length
decreasing_by
  push_neg at h
  have hpos : 0 < content.length := List.length_pos.mpr h.2
  simp only [List.length_drop]
  omega

lemma chunkContent_nil (m : Nat) : chunkContent [] m = [] := by
  rw [chunkContent]
  simp

lemma chunkContent_cons (content : List Char) (m : Nat) (hm : 0 < m)
    (hc : content ≠ []) :
    chunkContent content m =
      content.take m :: chunkContent (content.drop m) m := by
  rw [chunkContent]
  rw [dif_neg]
  push_neg
  exact ⟨Nat.pos_iff_ne_zero.mp hm, hc⟩

/-- C10: for positive `maxLength`, the chunks concatenate back to exactly
the original content, every chunk is at most `maxLength` long, and every
chunk except possibly the last is exactly `maxLength` long. -/
theorem chunkContent_spec (content : List Char) (m : Nat) (hm : 0 < m) :
    (chunkContent content m).flatten = content ∧
    (∀ chunk ∈ chunkContent content m, chunk.length ≤ m) ∧
    (∀ chunk ∈ (chunkContent content m).dropLast, chunk.length = m) := by
  suffices hgen : ∀ (n : Nat) (c : List Char), c.length ≤ n →
      (chunkContent c m).flatten = c ∧
      (∀ chunk ∈ chunkContent c m, chunk.length ≤ m) ∧
      (∀ chunk ∈ (chunkContent c m).dropLast, chunk.length = m) by
    exact hgen content.length content le_rfl
  intro n
  induction n with
  | zero =>
    intro c hcl
    have hc : c = [] := List.eq_nil_of_length_eq_zero (Nat.le_zero.mp hcl)
    subst hc
    simp [chunkContent_nil]
  | succ k ih =>
    intro c hcl
    by_cases hc : c = []
    · subst hc
      simp [chunkContent_nil]
    · have hlen : 0 < c.length := List.length_pos.mpr hc
      have hdk : (c.drop m).length ≤ k := by
        simp only [List.length_drop]
        omega
      have ihd := ih (c.drop m) hdk
      rw [chunkContent_cons c m hm hc]
      refine ⟨?_, ?_, ?_⟩
      · simp only [List.flatten_cons, ihd.1, List.take_append_drop]
      · intro chunk hmem
        rcases List.mem_cons.mp hmem with hmem | hmem
        · subst hmem
          simp only [List.length_take]
          omega
        · exact ihd.2.1 chunk hmem
      · cases hrest : chunkContent (c.drop m) m with
        | nil => simp [hrest]
        | cons c0 cs =>
          have hne : c.drop m ≠ [] := by
            intro hd
            rw [hd, chunkContent_nil] at hrest
            exact List.noConfusion hrest
          have hge : m ≤ c.length := by
            have : 0 < (c.drop m).length := List.length_pos.mpr hne
            simp only [List.length_drop] at this
            omega
          have hdl : (List.take m c :: c0 :: cs).dropLast =
              List.take m c :: (c0 :: cs).dropLast := rfl
          rw [hdl]
          intro chunk hmem
          rcases List.mem_cons.mp hmem with hmem | hmem
          · subst hmem
            simp only [List.length_take]
            omega
          · refine ihd.2.2 chunk ?_
            rw [hrest]
            exact hmem

/-- Witness for C10 on a concrete string. -/
theorem chunkContent_spec_witness :
    (chunkContent "hello world".toList 4).flatten = "hello world".toList ∧
    (∀ chunk ∈ chunkContent "hello world".toList 4, chunk.length ≤ 4) :=
  ⟨(chunkContent_spec "hello world".toList 4 (by decide)).1,
    (chunkContent_spec "hello world".toList 4 (by decide)).2.1⟩

/-! ## `validateData` (`validation-commands.js`, lines 27–55)

The three Joi schemas (`intakeSchema`, `sourceSchema`, `draftSchema`) are
declarative; their semantics (required / allowed-set / min / max checks,
each failing field contributing one message, `abortEarly: false`) is
embedded as per-field checkers.  The library-internal regular-expression
checks (`isoDate`, `uri`) are abstracted as boolean oracles `isoOk` /
`uriOk`, and the current year of `sourceSchema`'s
`max(new Date().getFullYear())` is a parameter. -/

/-- The dynamic input object passed to `validateData`; every field that
any of the three schemas can look at, each possibly absent.  Numeric Joi
fields are rationals. -/
structure InputData where
  topic : Option String
  format : Option String
  pages : Option ℚ
  deadline : Option String
  tags : Option (List String)
  userType : Option String
  title : Option String
  authors : Option (List (Option String))
  year : Option ℚ
  doi : Option String
  abstract : Option String
  url : Option String
  zoteroKey : Option String
  content : Option String
  plagiarismScore : Option ℚ
deriving DecidableEq

/-- An input object with every field absent. -/
def emptyInput : InputData :=
  ⟨none, none, none, none, none, none, none, none, none, none, none, none,
    none, none, none⟩

/-- Joi `string().required()` on one field: the field must be present (and,
as for every Joi string, non-empty). -/
def requiredString (fieldName : String) : Option String → List String
  | none => [fieldName ++ " is required"]
  | some v => if v = "" then [fieldName ++ " is not allowed to be empty"] else []

/-- Joi `string().valid(...)` on one optional field. -/
def validSet (fieldName : String) (allowed : List String) :
    Option String → List String
  | none => []
  | some v =>
    if v ∈ allowed then []
    else [fieldName ++ " must be one of the allowed values"]

/-- Joi `number().min(lo).max(hi)` on one optional field. -/
def numberRange (fieldName : String) (lo hi : ℚ) : Option ℚ → List String
  | none => []
  | some v =>
    (if v < lo then [fieldName ++ " must be greater than or equal to the minimum"] else []) ++
    (if hi < v then [fieldName ++ " must be less than or equal to the maximum"] else [])

/-- A string field checked by a library regular expression (`isoDate`,
`uri`), the regex abstracted as a boolean oracle. -/
def checkedString (fieldName : String) (ok : String → Bool) :
    Option String → List String
  | none => []
  | some v => if ok v then [] else [fieldName ++ " has an invalid format"]

/-- `intakeSchema`: topic required; format in APA/MLA/Chicago; length in
[1, 50]; deadline an ISO date; userType required and in
tutor/student/mixed/guest. -/
def validateIntake (isoOk : String → Bool) (d : InputData) : List String :=
  requiredString "topic" d.topic ++
  validSet "format" ["APA", "MLA", "Chicago"] d.format ++
  numberRange "length" 1 50 d.pages ++
  checkedString "deadline" isoOk d.deadline ++
  requiredString "userType" d.userType ++
  validSet "userType" ["tutor", "student", "mixed", "guest"] d.userType

/-- `sourceSchema`: title and doi required; each author object requires a
name; year in [2020, currentYear]; url a uri. -/
def validateSource (currentYear : ℚ) (uriOk : String → Bool)
    (d : InputData) : List String :=
  requiredString "title" d.title ++
  (match d.authors with
    | none => []
    | some as => as.flatMap (fun a => requiredString "author name" a)) ++
  numberRange "year" 2020 currentYear d.year ++
  requiredString "doi" d.doi ++
  checkedString "url" uriOk d.url

/-- `draftSchema`: topic and content required; format in APA/MLA/Chicago;
length in [1, 50]; plagiarismScore in [0, 1]. -/
def validateDraft (d : InputData) : List String :=
  requiredString "topic" d.topic ++
  validSet "format" ["APA", "MLA", "Chicago"] d.format ++
  numberRange "length" 1 50 d.pages ++
  requiredString "content" d.content ++
  numberRange "plagiarismScore" 0 1 d.plagiarismScore

/-- The structured result `validateData` always returns. -/
structure ValidationResult where
  isValid : Bool
  errors : List String
deriving DecidableEq

/-- Package a message list the way `validateData` does: valid iff no
error detail was produced. -/
def mkValidationResult (errs : List String) : ValidationResult :=
  ⟨errs.isEmpty, errs⟩

/-- `validateData(type, data)`: dispatch on the schema name; an unknown
type yields an invalid result with a single message; a known schema yields
`isValid` with the collected per-field messages.  Always returns a
`ValidationResult`, never an exception. -/
def validateData (t : String) (currentYear : ℚ)
    (isoOk uriOk : String → Bool) (d : InputData) : ValidationResult :=
  if t = "intake" then mkValidationResult (validateIntake isoOk d)
  else if t = "source" then mkValidationResult (validateSource currentYear uriOk d)
  else if t = "draft" then mkValidationResult (validateDraft d)
  else ⟨false, ["Unknown validation type: " ++ t]⟩

/-- C8: for every validation type and every input, `validateData` yields a
structured result (it is a total function of its inputs), and that result
is exactly one of: valid with no error messages, or invalid carrying a
non-empty list of per-field messages. -/
theorem validateData_total (t : String) (currentYear : ℚ)
    (isoOk uriOk : String → Bool) (d : InputData) :
    ((validateData t currentYear isoOk uriOk d).isValid = true ∧
      (validateData t currentYear isoOk uriOk d).errors = []) ∨
    ((validateData t currentYear isoOk uriOk d).isValid = false ∧
      (validateData t currentYear isoOk uriOk d).errors ≠ []) := by
  have hmk : ∀ errs : List String,
      ((mkValidationResult errs).isValid = true ∧
        (mkValidationResult errs).errors = []) ∨
      ((mkValidationResult errs).isValid = false ∧
        (mkValidationResult errs).errors ≠ []) := by
    intro errs
    cases errs with
    | nil => left; exact ⟨rfl, rfl⟩
    | cons a as => right; exact ⟨rfl, by simp [mkValidationResult]⟩
  unfold validateData
  by_cases h1 : t = "intake"
  · rw [if_pos h1]; exact hmk _
  · rw [if_neg h1]
    by_cases h2 : t = "source"
    · rw [if_pos h2]; exact hmk _
    · rw [if_neg h2]
      by_cases h3 : t = "draft"
      · rw [if_pos h3]; exact hmk _
      · rw [if_neg h3]
        right
        exact ⟨rfl, by simp⟩
